import Mathlib

/-!
Verification of the libspin slow-mode capture/uncapture/switch protocol
(`src/lib/spin_slow.cpp`).

The global executor state (all fields protected by `executorMutex` in the
source) is embedded as the structure `SpinState`.  Each guard or public API
function is embedded as a function `SpinState → Option SpinState`: the
`none` result models a fatal `assert`/`panic` (the process terminates, no
successor state).  Every lock-protected critical section of the source is
one atomic step of the transition relation; reachable states are therefore
exactly the states observable when `executorMutex` is not held.

Pin `CONTEXT`s are modelled as register maps `Nat → Nat`; callback
invocations are recorded in an event log so that claims about which hooks
fire with which arguments are statable.
-/

set_option maxHeartbeats 1000000

namespace Spin

/-- `MAX_THREADS` from spin_slow.cpp (2Kthreads is Pin's limit). -/
def MAX_THREADS : Nat := 2048

/-- `(uint32_t)-1`, the sentinel used for "no thread" in `curTid`/`executorTid`. -/
def NONE32 : Nat := 4294967295

/-- `(uint64_t)-1`, written into `switchReg` when a thread leaves executor role. -/
def NONE64 : Nat := 18446744073709551615

/-- Decrement of a `uint32_t` counter (`capturedThreads--`). -/
def dec32 (n : Nat) : Nat := (n + 4294967295) % 4294967296

/-- Increment of a `uint32_t` counter (`capturedThreads++`). -/
def inc32 (n : Nat) : Nat := (n + 1) % 4294967296

/-- `enum ThreadState` from spin_slow.cpp. -/
inductive ThreadState where
  | UNCAPTURED
  | BLOCKED
  | IDLE
  | RUNNING
deriving DecidableEq, Repr

open ThreadState

/-- A Pin `CONTEXT`, modelled as a map from register ids to 64-bit values. -/
def PinContext : Type := Nat → Nat

/-- The claimed tool register `executorReg` (abstract register id). -/
def executorReg : Nat := 0

/-- The claimed tool register `switchReg` (abstract register id). -/
def switchReg : Nat := 1

/-- `PIN_SetContextReg` on a saved context. -/
def setReg (c : PinContext) (r v : Nat) : PinContext := Function.update c r v

/-- `PIN_GetContextReg` on a saved context. -/
def getReg (c : PinContext) (r : Nat) : Nat := c r

/-- Observable callback invocations (the external hook interface). -/
inductive SpinEvent where
  | capture (tid : Nat) (isFirst : Bool)
  | uncapture (tid : Nat) (ctxt : PinContext)
  | threadStart (tid : Nat)
  | threadEnd (tid : Nat)

/-- The uncapture decision hook: `(outgoingTid, savedContext) → nextTid`. -/
def UncaptureCallback : Type := Nat → PinContext → Nat

/-- The executor state of spin_slow.cpp (everything `executorMutex` protects),
plus the thread context store and the event log of hook invocations. -/
@[ext]
structure SpinState where
  threadStates : Nat → ThreadState
  contexts : Nat → PinContext
  executorTid : Nat
  curTid : Nat
  capturedThreads : Nat
  executorInSyscall : Bool
  blockAfterSwitchcall : Bool
  events : List SpinEvent

/-- The state established by `spin::init`. -/
def initState : SpinState :=
  { threadStates := fun _ => UNCAPTURED
    contexts := fun _ _ => 0
    executorTid := NONE32
    curTid := NONE32
    capturedThreads := 0
    executorInSyscall := false
    blockAfterSwitchcall := false
    events := [] }

/-- `UncaptureAndSwitch()` (spin_slow.cpp lines 130-144).  Must be called with
the lock held.  Calls the uncapture hook on `(curTid, contexts[curTid])`;
a returned tid that is out of range or not IDLE is a `panic`; the assert
that `threadStates[curTid] == RUNNING` is likewise fatal. -/
def UncaptureAndSwitch (uncb : UncaptureCallback) (s : SpinState) : Option SpinState :=
  let nextTid := uncb s.curTid (s.contexts s.curTid)
  if nextTid < MAX_THREADS then
    if s.threadStates nextTid = IDLE then
      if s.threadStates s.curTid = RUNNING then
        some { s with
          capturedThreads := dec32 s.capturedThreads
          threadStates :=
            Function.update (Function.update s.threadStates s.curTid UNCAPTURED) nextTid RUNNING
          curTid := nextTid
          events := s.events ++ [SpinEvent.uncapture s.curTid (s.contexts s.curTid)] }
      else none
    else none
  else none

/-- `ThreadStart` (lines 102-109): start hook fires, then the state must be
UNCAPTURED. -/
def ThreadStart (tid : Nat) (s : SpinState) : Option SpinState :=
  if s.threadStates tid = UNCAPTURED then
    some { s with events := s.events ++ [SpinEvent.threadStart tid] }
  else none

/-- `ThreadFini` (lines 111-125): a RUNNING thread must be the sole captured
thread; otherwise the thread must be UNCAPTURED; the end hook fires, no
uncapture notification is emitted. -/
def ThreadFini (tid : Nat) (s : SpinState) : Option SpinState :=
  if s.threadStates tid = RUNNING then
    if s.capturedThreads = 1 then
      some { s with events := s.events ++ [SpinEvent.threadEnd tid] }
    else none
  else
    if s.threadStates tid = UNCAPTURED then
      some { s with events := s.events ++ [SpinEvent.threadEnd tid] }
    else none

/-- The capture section of `TraceGuard` (lines 173-185): the caller must be
UNCAPTURED; the capture hook fires with `(tid, runsNext)`; the thread
becomes IDLE and `capturedThreads` is incremented; the first captured
thread becomes RUNNING and `curTid` (asserted to be none) is set to it. -/
def TG_captureSection (tid : Nat) (s : SpinState) : Option SpinState :=
  if s.threadStates tid = UNCAPTURED then
    let runsNext := s.capturedThreads = 0
    let s1 := { s with
      events := s.events ++ [SpinEvent.capture tid runsNext]
      capturedThreads := inc32 s.capturedThreads
      threadStates := Function.update s.threadStates tid IDLE }
    if runsNext then
      if s1.curTid = NONE32 then
        some { s1 with
          threadStates := Function.update s1.threadStates tid RUNNING
          curTid := tid }
      else none
    else some s1
  else none

/-- The deferred-uncapture section of `TraceGuard` (lines 187-195): if the
executor is parked in a syscall, the entering thread performs the deferred
uncapture-and-switch on its behalf, then clears executor identity and the
`executorInSyscall` flag. -/
def TG_deferredUncapture (uncb : UncaptureCallback) (s : SpinState) : Option SpinState :=
  if s.executorInSyscall then
    if s.curTid = s.executorTid then
      if s.capturedThreads = 2 then
        (UncaptureAndSwitch uncb s).map fun t =>
          { t with executorTid := NONE32, executorInSyscall := false }
      else none
    else none
  else some s

/-- The tail of `TraceGuard` (lines 199-232): if an executor exists the
thread parks on its wait lock (the critical section ends there); otherwise
it claims executor role (asserting `curTid < MAX_THREADS`) and resumes
`curTid`'s saved context in executor role. -/
def TG_parkOrClaim (tid : Nat) (s : SpinState) : Option SpinState :=
  if s.executorTid ≠ NONE32 then
    some s
  else
    if s.curTid < MAX_THREADS then
      some { s with
        executorTid := tid
        contexts := Function.update s.contexts s.curTid
          (setReg (setReg (s.contexts s.curTid) executorReg 1) switchReg s.curTid) }
    else none

/-- `TraceGuard` (lines 151-233).  Saves the live context, then either takes
the single-thread fast path (the thread is still RUNNING: it must be the
executor and `curTid` with `capturedThreads == 1`, and it resumes directly,
clearing `executorInSyscall`), or runs capture, deferred uncapture, and
park-or-claim-executor. -/
def TraceGuard (uncb : UncaptureCallback) (tid : Nat) (ctxt : PinContext)
    (s : SpinState) : Option SpinState :=
  let s0 := { s with contexts := Function.update s.contexts tid ctxt }
  if s0.threadStates tid = RUNNING then
    if s0.executorTid = tid then
      if s0.curTid = tid then
        if s0.capturedThreads = 1 then
          some { s0 with
            executorInSyscall := false
            contexts := Function.update s0.contexts tid
              (setReg (setReg (s0.contexts tid) executorReg 1) switchReg s0.curTid) }
        else none
      else none
    else none
  else
    (TG_captureSection tid s0).bind fun s1 =>
      (TG_deferredUncapture uncb s1).bind fun s2 =>
        TG_parkOrClaim tid s2

/-- One iteration of the `TraceGuard` wait loop after a wakeup (lines
199-221): a thread woken UNCAPTURED leaves to take its own syscall; if the
executor role is free the thread claims it; otherwise the wakeup is
spurious and it parks again. -/
def TG_wakeup (tid : Nat) (s : SpinState) : Option SpinState :=
  if s.threadStates tid = UNCAPTURED then
    some { s with
      contexts := Function.update s.contexts tid
        (setReg (setReg (s.contexts tid) executorReg 0) switchReg NONE64) }
  else
    if s.executorTid = NONE32 then
      if s.curTid < MAX_THREADS then
        some { s with
          executorTid := tid
          contexts := Function.update s.contexts s.curTid
            (setReg (setReg (s.contexts s.curTid) executorReg 1) switchReg s.curTid) }
      else none
    else some s

/-- `SyscallGuard` (lines 239-285).  Only the executor reaches it.  Case 1:
the syscall belongs to a different logical thread — uncapture-and-switch
and ship the syscall.  Case 2: the executor blocks itself with other
captured threads available — uncapture-and-switch and hand off executor
role.  Case 3: sole captured thread — defer, setting `executorInSyscall`. -/
def SyscallGuard (uncb : UncaptureCallback) (tid : Nat) (ctxt : PinContext)
    (s : SpinState) : Option SpinState :=
  if s.executorTid = tid then
    let s0 := { s with contexts := Function.update s.contexts s.curTid ctxt }
    if s0.curTid ≠ tid then
      if 2 ≤ s0.capturedThreads then
        (UncaptureAndSwitch uncb s0).map fun t =>
          { t with
            contexts := Function.update t.contexts t.curTid
              (setReg (setReg (t.contexts t.curTid) executorReg 1) switchReg t.curTid) }
      else none
    else
      if 2 ≤ s0.capturedThreads then
        (UncaptureAndSwitch uncb s0).map fun t =>
          { t with
            executorTid := NONE32
            contexts := Function.update t.contexts tid
              (setReg (setReg (t.contexts tid) executorReg 0) switchReg NONE64) }
      else
        if s0.executorInSyscall then none
        else
          some { s0 with
            executorInSyscall := true
            contexts := Function.update s0.contexts tid
              (setReg (setReg (s0.contexts tid) executorReg 0) switchReg NONE64) }
  else none

/-- `NeedsSwitch` (lines 287-289): the switch handler runs iff the requested
tid differs from `curTid` or a block-after-switchcall is pending. -/
def NeedsSwitch (s : SpinState) (nextTid : Nat) : Bool :=
  (nextTid ≠ s.curTid) || s.blockAfterSwitchcall

/-- `SwitchHandler` (lines 291-329).  Reads the requested tid from
`switchReg` of the live context.  Fatal checks in source order: the caller
must hold executor role (`executorReg == 1`); a pending block-after-switch
naming the current thread is a panic; `executorTid == tid`;
`nextTid != curTid`; `curTid <= MAX_THREADS`; `nextTid` in range and IDLE;
outgoing thread RUNNING.  Then the outgoing thread becomes IDLE (or
BLOCKED, consuming the one-shot flag and decrementing `capturedThreads`),
and the requested thread becomes RUNNING and the new `curTid`/executor. -/
def SwitchHandler (tid : Nat) (ctxt : PinContext) (s : SpinState) : Option SpinState :=
  let nextTid := getReg ctxt switchReg
  if getReg ctxt executorReg = 1 then
    if s.blockAfterSwitchcall ∧ nextTid = s.curTid then none
    else
      if s.executorTid = tid then
        if nextTid ≠ s.curTid then
          if s.curTid ≤ MAX_THREADS then
            if nextTid < MAX_THREADS ∧ s.threadStates nextTid = IDLE then
              let s0 := { s with
                contexts := Function.update s.contexts s.curTid
                  (setReg (setReg ctxt executorReg 0) switchReg NONE64) }
              if s0.threadStates s0.curTid = RUNNING then
                if s0.blockAfterSwitchcall then
                  some { s0 with
                    threadStates :=
                      Function.update (Function.update s0.threadStates s0.curTid BLOCKED)
                        nextTid RUNNING
                    capturedThreads := dec32 s0.capturedThreads
                    blockAfterSwitchcall := false
                    curTid := nextTid
                    contexts := Function.update s0.contexts nextTid
                      (setReg (setReg (s0.contexts nextTid) executorReg 1) switchReg nextTid) }
                else
                  some { s0 with
                    threadStates :=
                      Function.update (Function.update s0.threadStates s0.curTid IDLE)
                        nextTid RUNNING
                    curTid := nextTid
                    contexts := Function.update s0.contexts nextTid
                      (setReg (setReg (s0.contexts nextTid) executorReg 1) switchReg nextTid) }
              else none
            else none
          else none
        else none
      else none
  else none

/-- `getContext` (lines 433-437): asserts the tid is in range and the thread
is BLOCKED or IDLE, then hands out the saved context. -/
def getContext (s : SpinState) (tid : Nat) : Option PinContext :=
  if tid < MAX_THREADS then
    if s.threadStates tid = BLOCKED ∨ s.threadStates tid = IDLE then
      some (s.contexts tid)
    else none
  else none

/-- `blockAfterSwitch` (lines 444-447): arms the one-shot flag; double-arming
is fatal. -/
def blockAfterSwitch (s : SpinState) : Option SpinState :=
  if s.blockAfterSwitchcall then none
  else some { s with blockAfterSwitchcall := true }

/-- `blockIdleThread` (lines 449-457). -/
def blockIdleThread (tid : Nat) (s : SpinState) : Option SpinState :=
  if tid < MAX_THREADS then
    if s.threadStates tid = IDLE then
      if 1 < s.capturedThreads then
        some { s with
          threadStates := Function.update s.threadStates tid BLOCKED
          capturedThreads := dec32 s.capturedThreads }
      else none
    else none
  else none

/-- `unblock` (lines 459-466). -/
def unblock (tid : Nat) (s : SpinState) : Option SpinState :=
  if tid < MAX_THREADS then
    if s.threadStates tid = BLOCKED then
      some { s with
        threadStates := Function.update s.threadStates tid IDLE
        capturedThreads := inc32 s.capturedThreads }
    else none
  else none

/-- Schedulable captured states: IDLE and RUNNING. -/
def isCaptured : ThreadState → Bool
  | IDLE => true
  | RUNNING => true
  | _ => false

/-- Number of logical threads in `{IDLE, RUNNING}` (what `capturedThreads`
is documented to count). -/
def countCaptured (f : Nat → ThreadState) : Nat :=
  (List.range MAX_THREADS).countP (fun i => isCaptured (f i))

/-- Unrestricted transition relation: every lock-protected critical section
of spin_slow.cpp, invoked with arbitrary thread ids (bounded by Pin's
`MAX_THREADS` limit), arbitrary live contexts, and arbitrary callback
results. -/
inductive StepA : SpinState → SpinState → Prop where
  | threadStart {s s' : SpinState} {tid : Nat} :
      tid < MAX_THREADS → ThreadStart tid s = some s' → StepA s s'
  | threadFini {s s' : SpinState} {tid : Nat} :
      tid < MAX_THREADS → ThreadFini tid s = some s' → StepA s s'
  | traceGuard {s s' : SpinState} {tid : Nat} {uncb : UncaptureCallback} {ctxt : PinContext} :
      tid < MAX_THREADS → TraceGuard uncb tid ctxt s = some s' → StepA s s'
  | tgWakeup {s s' : SpinState} {tid : Nat} :
      tid < MAX_THREADS → TG_wakeup tid s = some s' → StepA s s'
  | syscallGuard {s s' : SpinState} {tid : Nat} {uncb : UncaptureCallback} {ctxt : PinContext} :
      tid < MAX_THREADS → SyscallGuard uncb tid ctxt s = some s' → StepA s s'
  | switchHandler {s s' : SpinState} {tid : Nat} {ctxt : PinContext} :
      tid < MAX_THREADS → SwitchHandler tid ctxt s = some s' → StepA s s'
  | blockIdle {s s' : SpinState} {tid : Nat} :
      blockIdleThread tid s = some s' → StepA s s'
  | unblockStep {s s' : SpinState} {tid : Nat} :
      unblock tid s = some s' → StepA s s'
  | blockAfter {s s' : SpinState} :
      blockAfterSwitch s = some s' → StepA s s'

/-- States reachable from `init` by any interleaving of critical sections. -/
inductive ReachableA : SpinState → Prop where
  | init : ReachableA initState
  | step {s s' : SpinState} : ReachableA s → StepA s s' → ReachableA s'

/-- Restricted transition relation: like `StepA`, but the public suspension
API (`blockIdleThread`, `unblock`, `blockAfterSwitch`) may only be invoked
by tool code, which runs on the executor; hence not while the executor is
parked inside a syscall (`executorInSyscall`). -/
inductive Step : SpinState → SpinState → Prop where
  | threadStart {s s' : SpinState} {tid : Nat} :
      tid < MAX_THREADS → ThreadStart tid s = some s' → Step s s'
  | threadFini {s s' : SpinState} {tid : Nat} :
      tid < MAX_THREADS → ThreadFini tid s = some s' → Step s s'
  | traceGuard {s s' : SpinState} {tid : Nat} {uncb : UncaptureCallback} {ctxt : PinContext} :
      tid < MAX_THREADS → TraceGuard uncb tid ctxt s = some s' → Step s s'
  | tgWakeup {s s' : SpinState} {tid : Nat} :
      tid < MAX_THREADS → TG_wakeup tid s = some s' → Step s s'
  | syscallGuard {s s' : SpinState} {tid : Nat} {uncb : UncaptureCallback} {ctxt : PinContext} :
      tid < MAX_THREADS → SyscallGuard uncb tid ctxt s = some s' → Step s s'
  | switchHandler {s s' : SpinState} {tid : Nat} {ctxt : PinContext} :
      tid < MAX_THREADS → SwitchHandler tid ctxt s = some s' → Step s s'
  | blockIdle {s s' : SpinState} {tid : Nat} :
      s.executorInSyscall = false → blockIdleThread tid s = some s' → Step s s'
  | unblockStep {s s' : SpinState} {tid : Nat} :
      s.executorInSyscall = false → unblock tid s = some s' → Step s s'
  | blockAfter {s s' : SpinState} :
      s.executorInSyscall = false → blockAfterSwitch s = some s' → Step s s'

/-- States reachable under the tool-API discipline. -/
inductive Reachable : SpinState → Prop where
  | init : Reachable initState
  | step {s s' : SpinState} : Reachable s → Step s s' → Reachable s'

/-- The core inductive invariant of the executor state. -/
structure InvC (s : SpinState) : Prop where
  count_eq : s.capturedThreads = countCaptured s.threadStates
  cur_ok : s.curTid = NONE32 ∨
    (s.curTid < MAX_THREADS ∧ s.threadStates s.curTid = RUNNING)
  running_unique : ∀ i, s.threadStates i = RUNNING → i = s.curTid
  high_uncaptured : ∀ i, MAX_THREADS ≤ i → s.threadStates i = UNCAPTURED

/-- The deferred-syscall invariant: while `executorInSyscall` is set, the
executor identity equals `curTid`, that thread is RUNNING, and it is the
sole captured thread. -/
def InvS (s : SpinState) : Prop :=
  s.executorInSyscall = true →
    s.executorTid = s.curTid ∧ s.curTid < MAX_THREADS ∧
      s.threadStates s.curTid = RUNNING ∧ s.capturedThreads = 1

/- ## Counting lemmas -/

lemma countP_range_update (f : Nat → ThreadState) (t : Nat) (v : ThreadState)
    (n : Nat) (ht : t < n) :
    (List.range n).countP (fun i => isCaptured (Function.update f t v i))
        + (if isCaptured (f t) then 1 else 0)
      = (List.range n).countP (fun i => isCaptured (f i))
        + (if isCaptured v then 1 else 0) := by
  induction n with
  | zero => omega
  | succ n ih =>
    rw [List.range_succ, List.countP_append, List.countP_append]
    by_cases h : t = n
    · subst h
      have hcong : (List.range t).countP (fun i => isCaptured (Function.update f t v i))
          = (List.range t).countP (fun i => isCaptured (f i)) := by
        refine List.countP_congr ?_
        intro a ha
        have : a ≠ t := by
          have := List.mem_range.mp ha; omega
        simp [Function.update, this]
      have h1 : ([t] : List Nat).countP (fun i => isCaptured (Function.update f t v i))
          = if isCaptured v then 1 else 0 := by
        simp [List.countP_cons, Function.update]
      have h2 : ([t] : List Nat).countP (fun i => isCaptured (f i))
          = if isCaptured (f t) then 1 else 0 := by
        simp [List.countP_cons]
      rw [hcong, h1, h2]
      omega
    · have ht' : t < n := by omega
      have h1 : ([n] : List Nat).countP (fun i => isCaptured (Function.update f t v i))
          = if isCaptured (f n) then 1 else 0 := by
        simp [List.countP_cons, Function.update, Ne.symm h]
      have h2 : ([n] : List Nat).countP (fun i => isCaptured (f i))
          = if isCaptured (f n) then 1 else 0 := by
        simp [List.countP_cons]
      rw [h1, h2]
      have := ih ht'
      omega

lemma countCaptured_update (f : Nat → ThreadState) (t : Nat) (v : ThreadState)
    (ht : t < MAX_THREADS) :
    countCaptured (Function.update f t v) + (if isCaptured (f t) then 1 else 0)
      = countCaptured f + (if isCaptured v then 1 else 0) :=
  countP_range_update f t v MAX_THREADS ht

lemma countCaptured_le (f : Nat → ThreadState) : countCaptured f ≤ MAX_THREADS := by
  have : (List.range MAX_THREADS).countP (fun i => isCaptured (f i))
      ≤ (List.range MAX_THREADS).length :=
    List.countP_le_length _
  simpa [countCaptured] using this

lemma countCaptured_pos (f : Nat → ThreadState) (t : Nat) (ht : t < MAX_THREADS)
    (h : isCaptured (f t) = true) : 1 ≤ countCaptured f := by
  have : 0 < (List.range MAX_THREADS).countP (fun i => isCaptured (f i)) :=
    List.countP_pos_iff.mpr ⟨t, List.mem_range.mpr ht, h⟩
  simpa [countCaptured] using this

lemma countCaptured_eq_zero (f : Nat → ThreadState) (h : countCaptured f = 0) :
    ∀ i, i < MAX_THREADS → isCaptured (f i) = false := by
  intro i hi
  have := List.countP_eq_zero.mp h i (List.mem_range.mpr hi)
  simpa using this

lemma dec32_eq {n : Nat} (h1 : 1 ≤ n) (h2 : n < 4294967296) : dec32 n = n - 1 := by
  unfold dec32; omega

lemma inc32_eq {n : Nat} (h : n + 1 < 4294967296) : inc32 n = n + 1 := by
  unfold inc32; omega

/- ## Characterization lemmas for the critical sections -/

lemma uncapture_some_iff {uncb : UncaptureCallback} {s s' : SpinState} :
    UncaptureAndSwitch uncb s = some s' ↔
      uncb s.curTid (s.contexts s.curTid) < MAX_THREADS ∧
      s.threadStates (uncb s.curTid (s.contexts s.curTid)) = IDLE ∧
      s.threadStates s.curTid = RUNNING ∧
      s' = { s with
        capturedThreads := dec32 s.capturedThreads
        threadStates :=
          Function.update (Function.update s.threadStates s.curTid UNCAPTURED)
            (uncb s.curTid (s.contexts s.curTid)) RUNNING
        curTid := uncb s.curTid (s.contexts s.curTid)
        events := s.events ++ [SpinEvent.uncapture s.curTid (s.contexts s.curTid)] } := by
  unfold UncaptureAndSwitch
  split_ifs with h1 h2 h3 <;> simp_all [eq_comm]

@[simp] lemma isCaptured_UNCAPTURED : isCaptured UNCAPTURED = false := rfl
@[simp] lemma isCaptured_BLOCKED : isCaptured BLOCKED = false := rfl
@[simp] lemma isCaptured_IDLE : isCaptured IDLE = true := rfl
@[simp] lemma isCaptured_RUNNING : isCaptured RUNNING = true := rfl

lemma invC_congr {s s' : SpinState} (hs : InvC s)
    (h1 : s'.threadStates = s.threadStates) (h2 : s'.curTid = s.curTid)
    (h3 : s'.capturedThreads = s.capturedThreads) : InvC s' := by
  constructor
  · rw [h1, h3]; exact hs.count_eq
  · rw [h1, h2]; exact hs.cur_ok
  · rw [h1, h2]; exact hs.running_unique
  · rw [h1]; exact hs.high_uncaptured

/-- In any state satisfying the invariant, a RUNNING `curTid` forces
`capturedThreads` within `[1, MAX_THREADS]`. -/
lemma invC_cur_lt {s : SpinState} (hs : InvC s)
    (h : s.threadStates s.curTid = RUNNING) :
    s.curTid < MAX_THREADS := by
  rcases hs.cur_ok with hc | hc
  · exfalso
    have : MAX_THREADS ≤ s.curTid := by
      rw [hc]; unfold NONE32 MAX_THREADS; omega
    have := hs.high_uncaptured s.curTid this
    rw [h] at this
    exact ThreadState.noConfusion this
  · exact hc.1

lemma invC_captured_le {s : SpinState} (hs : InvC s) :
    s.capturedThreads ≤ MAX_THREADS := by
  rw [hs.count_eq]; exact countCaptured_le _

lemma invC_captured_pos {s : SpinState} (hs : InvC s)
    (h : s.threadStates s.curTid = RUNNING) : 1 ≤ s.capturedThreads := by
  rw [hs.count_eq]
  exact countCaptured_pos _ s.curTid (invC_cur_lt hs h) (by rw [h]; rfl)

/-- Invariant preservation and the captured-count drop for
`UncaptureAndSwitch`. -/
lemma invC_uncapture {uncb : UncaptureCallback} {s s' : SpinState}
    (hs : InvC s) (h : UncaptureAndSwitch uncb s = some s') :
    InvC s' ∧ s'.capturedThreads = s.capturedThreads - 1 ∧
      1 ≤ s'.capturedThreads := by
  obtain ⟨hn1, hn2, hcurR, hs'⟩ := uncapture_some_iff.mp h
  set n := uncb s.curTid (s.contexts s.curTid) with hn
  have hts : s'.threadStates
      = Function.update (Function.update s.threadStates s.curTid UNCAPTURED) n RUNNING := by
    rw [hs']
  have hcur' : s'.curTid = n := by rw [hs']
  have hcap' : s'.capturedThreads = dec32 s.capturedThreads := by rw [hs']
  have hcur_lt : s.curTid < MAX_THREADS := invC_cur_lt hs hcurR
  have hne : n ≠ s.curTid := by
    intro he; rw [he, hcurR] at hn2; exact ThreadState.noConfusion hn2
  have hpos : 1 ≤ s.capturedThreads := invC_captured_pos hs hcurR
  have hle : s.capturedThreads ≤ MAX_THREADS := invC_captured_le hs
  have hdec : dec32 s.capturedThreads = s.capturedThreads - 1 :=
    dec32_eq hpos (by unfold MAX_THREADS at hle; omega)
  have hc1 := countCaptured_update s.threadStates s.curTid UNCAPTURED hcur_lt
  rw [hcurR] at hc1
  have hc2 := countCaptured_update
    (Function.update s.threadStates s.curTid UNCAPTURED) n RUNNING hn1
  rw [Function.update_noteq hne, hn2] at hc2
  simp only [isCaptured_UNCAPTURED, isCaptured_IDLE, isCaptured_RUNNING] at hc1 hc2
  simp only [if_true, if_false, Bool.false_eq_true, ite_true, ite_false] at hc1 hc2
  have hcount : countCaptured
      (Function.update (Function.update s.threadStates s.curTid UNCAPTURED) n RUNNING)
      = countCaptured s.threadStates - 1 := by omega
  have hcount_pos : 1 ≤ countCaptured
      (Function.update (Function.update s.threadStates s.curTid UNCAPTURED) n RUNNING) := by
    refine countCaptured_pos _ n hn1 ?_
    rw [Function.update_same]
    rfl
  refine ⟨⟨?_, ?_, ?_, ?_⟩, ?_, ?_⟩
  · rw [hcap', hts, hdec, hcount, hs.count_eq]
  · right
    rw [hcur', hts]
    exact ⟨hn1, by rw [Function.update_same]⟩
  · intro i hi
    rw [hts] at hi
    rw [hcur']
    by_cases hin : i = n
    · exact hin
    · rw [Function.update_noteq hin] at hi
      by_cases hic : i = s.curTid
      · rw [hic, Function.update_same] at hi; exact ThreadState.noConfusion hi
      · rw [Function.update_noteq hic] at hi
        exact absurd (hs.running_unique i hi) hic
  · intro i hi
    have hin : i ≠ n := by intro he; rw [he] at hi; omega
    have hic : i ≠ s.curTid := by intro he; rw [he] at hi; omega
    rw [hts, Function.update_noteq hin, Function.update_noteq hic]
    exact hs.high_uncaptured i hi
  · rw [hcap', hdec]
  · rw [hcap', hdec, hs.count_eq]
    omega

lemma threadStart_some_iff {tid : Nat} {s s' : SpinState} :
    ThreadStart tid s = some s' ↔
      s.threadStates tid = UNCAPTURED ∧
      { s with events := s.events ++ [SpinEvent.threadStart tid] } = s' := by
  unfold ThreadStart
  split_ifs <;> simp_all

lemma threadFini_some_iff {tid : Nat} {s s' : SpinState} :
    ThreadFini tid s = some s' ↔
      ((s.threadStates tid = RUNNING ∧ s.capturedThreads = 1) ∨
        s.threadStates tid = UNCAPTURED) ∧
      { s with events := s.events ++ [SpinEvent.threadEnd tid] } = s' := by
  unfold ThreadFini
  split_ifs <;> simp_all

lemma captureSection_some_iff {tid : Nat} {s s' : SpinState} :
    TG_captureSection tid s = some s' ↔
      s.threadStates tid = UNCAPTURED ∧
      ((s.capturedThreads = 0 ∧ s.curTid = NONE32 ∧
          { s with
            events := s.events ++ [SpinEvent.capture tid (decide (s.capturedThreads = 0))]
            capturedThreads := inc32 s.capturedThreads
            threadStates :=
              Function.update (Function.update s.threadStates tid IDLE) tid RUNNING
            curTid := tid } = s') ∨
        (s.capturedThreads ≠ 0 ∧
          { s with
            events := s.events ++ [SpinEvent.capture tid (decide (s.capturedThreads = 0))]
            capturedThreads := inc32 s.capturedThreads
            threadStates := Function.update s.threadStates tid IDLE } = s')) := by
  unfold TG_captureSection
  dsimp only
  split_ifs with h1 h2 h3 <;> simp_all

lemma deferredUncapture_some_iff {uncb : UncaptureCallback} {s s' : SpinState} :
    TG_deferredUncapture uncb s = some s' ↔
      ((s.executorInSyscall = false ∧ s = s') ∨
        (s.executorInSyscall = true ∧ s.curTid = s.executorTid ∧
          s.capturedThreads = 2 ∧
          ∃ t, UncaptureAndSwitch uncb s = some t ∧
            { t with executorTid := NONE32, executorInSyscall := false } = s')) := by
  unfold TG_deferredUncapture
  split_ifs with h1 h2 h3
  · rw [Option.map_eq_some']
    constructor
    · rintro ⟨t, ht, hts⟩
      exact Or.inr ⟨h1, h2, h3, t, ht, hts⟩
    · rintro (⟨hf, _⟩ | ⟨_, _, _, t, ht, hts⟩)
      · rw [h1] at hf; exact Bool.noConfusion hf
      · exact ⟨t, ht, hts⟩
  · simp_all
  · simp_all
  · simp_all

lemma parkOrClaim_some_iff {tid : Nat} {s s' : SpinState} :
    TG_parkOrClaim tid s = some s' ↔
      ((s.executorTid ≠ NONE32 ∧ s = s') ∨
        (s.executorTid = NONE32 ∧ s.curTid < MAX_THREADS ∧
          { s with
            executorTid := tid
            contexts := Function.update s.contexts s.curTid
              (setReg (setReg (s.contexts s.curTid) executorReg 1) switchReg s.curTid) }
            = s')) := by
  unfold TG_parkOrClaim
  split_ifs <;> simp_all

lemma tgWakeup_some_iff {tid : Nat} {s s' : SpinState} :
    TG_wakeup tid s = some s' ↔
      ((s.threadStates tid = UNCAPTURED ∧
          { s with
            contexts := Function.update s.contexts tid
              (setReg (setReg (s.contexts tid) executorReg 0) switchReg NONE64) } = s') ∨
        (s.threadStates tid ≠ UNCAPTURED ∧ s.executorTid = NONE32 ∧
          s.curTid < MAX_THREADS ∧
          { s with
            executorTid := tid
            contexts := Function.update s.contexts s.curTid
              (setReg (setReg (s.contexts s.curTid) executorReg 1) switchReg s.curTid) }
            = s') ∨
        (s.threadStates tid ≠ UNCAPTURED ∧ s.executorTid ≠ NONE32 ∧ s = s')) := by
  unfold TG_wakeup
  split_ifs <;> simp_all

lemma blockIdleThread_some_iff {tid : Nat} {s s' : SpinState} :
    blockIdleThread tid s = some s' ↔
      tid < MAX_THREADS ∧ s.threadStates tid = IDLE ∧ 1 < s.capturedThreads ∧
      { s with
        threadStates := Function.update s.threadStates tid BLOCKED
        capturedThreads := dec32 s.capturedThreads } = s' := by
  unfold blockIdleThread
  split_ifs <;> simp_all

lemma unblock_some_iff {tid : Nat} {s s' : SpinState} :
    unblock tid s = some s' ↔
      tid < MAX_THREADS ∧ s.threadStates tid = BLOCKED ∧
      { s with
        threadStates := Function.update s.threadStates tid IDLE
        capturedThreads := inc32 s.capturedThreads } = s' := by
  unfold unblock
  split_ifs <;> simp_all

lemma blockAfterSwitch_some_iff {s s' : SpinState} :
    blockAfterSwitch s = some s' ↔
      s.blockAfterSwitchcall = false ∧
      { s with blockAfterSwitchcall := true } = s' := by
  unfold blockAfterSwitch
  split_ifs <;> simp_all

lemma getContext_some_iff {tid : Nat} {s : SpinState} {c : PinContext} :
    getContext s tid = some c ↔
      tid < MAX_THREADS ∧
      (s.threadStates tid = BLOCKED ∨ s.threadStates tid = IDLE) ∧
      s.contexts tid = c := by
  unfold getContext
  split_ifs <;> simp_all

lemma switchHandler_some_iff {tid : Nat} {ctxt : PinContext} {s s' : SpinState} :
    SwitchHandler tid ctxt s = some s' ↔
      getReg ctxt executorReg = 1 ∧ s.executorTid = tid ∧
      getReg ctxt switchReg ≠ s.curTid ∧ s.curTid ≤ MAX_THREADS ∧
      getReg ctxt switchReg < MAX_THREADS ∧
      s.threadStates (getReg ctxt switchReg) = IDLE ∧
      s.threadStates s.curTid = RUNNING ∧
      (if s.blockAfterSwitchcall then
        { s with
          contexts := Function.update
            (Function.update s.contexts s.curTid
              (setReg (setReg ctxt executorReg 0) switchReg NONE64))
            (getReg ctxt switchReg)
            (setReg (setReg
              (Function.update s.contexts s.curTid
                (setReg (setReg ctxt executorReg 0) switchReg NONE64)
                (getReg ctxt switchReg)) executorReg 1) switchReg (getReg ctxt switchReg))
          threadStates :=
            Function.update (Function.update s.threadStates s.curTid BLOCKED)
              (getReg ctxt switchReg) RUNNING
          capturedThreads := dec32 s.capturedThreads
          blockAfterSwitchcall := false
          curTid := getReg ctxt switchReg }
      else
        { s with
          contexts := Function.update
            (Function.update s.contexts s.curTid
              (setReg (setReg ctxt executorReg 0) switchReg NONE64))
            (getReg ctxt switchReg)
            (setReg (setReg
              (Function.update s.contexts s.curTid
                (setReg (setReg ctxt executorReg 0) switchReg NONE64)
                (getReg ctxt switchReg)) executorReg 1) switchReg (getReg ctxt switchReg))
          threadStates :=
            Function.update (Function.update s.threadStates s.curTid IDLE)
              (getReg ctxt switchReg) RUNNING
          curTid := getReg ctxt switchReg }) = s' := by
  unfold SwitchHandler
  dsimp only
  split_ifs <;> simp_all [and_assoc]

/- ## Invariant preservation -/

lemma invC_init : InvC initState := by
  constructor
  · show (0 : Nat) = countCaptured fun _ => UNCAPTURED
    symm
    unfold countCaptured
    rw [List.countP_eq_zero]
    intro a _
    simp
  · exact Or.inl rfl
  · intro i hi
    exact absurd hi (by simp [initState])
  · intro i _
    rfl

lemma captured_succ_le {s : SpinState} (hs : InvC s) :
    inc32 s.capturedThreads = s.capturedThreads + 1 := by
  have h1 : s.capturedThreads ≤ MAX_THREADS := invC_captured_le hs
  unfold MAX_THREADS at h1
  exact inc32_eq (by omega)

lemma invC_threadStart {tid : Nat} {s s' : SpinState} (hs : InvC s)
    (h : ThreadStart tid s = some s') : InvC s' := by
  obtain ⟨-, hs'⟩ := threadStart_some_iff.mp h
  exact invC_congr hs (by rw [← hs']) (by rw [← hs']) (by rw [← hs'])

lemma invC_threadFini {tid : Nat} {s s' : SpinState} (hs : InvC s)
    (h : ThreadFini tid s = some s') : InvC s' := by
  obtain ⟨-, hs'⟩ := threadFini_some_iff.mp h
  exact invC_congr hs (by rw [← hs']) (by rw [← hs']) (by rw [← hs'])

lemma invC_captureSection {tid : Nat} {s s' : SpinState}
    (htid : tid < MAX_THREADS) (hs : InvC s)
    (h : TG_captureSection tid s = some s') :
    InvC s' ∧ s'.capturedThreads = s.capturedThreads + 1 ∧
      s'.executorTid = s.executorTid ∧
      s'.executorInSyscall = s.executorInSyscall := by
  obtain ⟨hU, hcase⟩ := captureSection_some_iff.mp h
  have hinc := captured_succ_le hs
  have hc1 := countCaptured_update s.threadStates tid IDLE htid
  rw [hU] at hc1
  simp only [isCaptured_UNCAPTURED, isCaptured_IDLE, Bool.false_eq_true,
    if_false, if_true] at hc1
  rcases hcase with ⟨hc0, hcurN, hs'⟩ | ⟨hcne, hs'⟩
  · have hts : s'.threadStates
        = Function.update (Function.update s.threadStates tid IDLE) tid RUNNING := by
      rw [← hs']
    have hcur' : s'.curTid = tid := by rw [← hs']
    have hcap' : s'.capturedThreads = inc32 s.capturedThreads := by rw [← hs']
    have hc2 := countCaptured_update
      (Function.update s.threadStates tid IDLE) tid RUNNING htid
    rw [Function.update_same] at hc2
    simp only [isCaptured_IDLE, isCaptured_RUNNING, if_true] at hc2
    refine ⟨⟨?_, ?_, ?_, ?_⟩, ?_, by rw [← hs'], by rw [← hs']⟩
    · rw [hcap', hts, hinc, hs.count_eq]
      omega
    · right
      rw [hcur', hts]
      exact ⟨htid, by rw [Function.update_same]⟩
    · intro i hi
      rw [hts] at hi
      rw [hcur']
      by_cases hit : i = tid
      · exact hit
      · rw [Function.update_noteq hit, Function.update_noteq hit] at hi
        exfalso
        have hicur := hs.running_unique i hi
        rw [hcurN] at hicur
        have : MAX_THREADS ≤ i := by rw [hicur]; unfold NONE32 MAX_THREADS; omega
        have := hs.high_uncaptured i this
        rw [this] at hi
        exact ThreadState.noConfusion hi
    · intro i hi
      have hit : i ≠ tid := by intro he; rw [he] at hi; omega
      rw [hts, Function.update_noteq hit, Function.update_noteq hit]
      exact hs.high_uncaptured i hi
    · rw [hcap', hinc]
  · have hts : s'.threadStates = Function.update s.threadStates tid IDLE := by
      rw [← hs']
    have hcur' : s'.curTid = s.curTid := by rw [← hs']
    have hcap' : s'.capturedThreads = inc32 s.capturedThreads := by rw [← hs']
    have htc : tid ≠ s.curTid := by
      intro he
      rcases hs.cur_ok with hc | hc
      · rw [he, hc] at htid; unfold NONE32 MAX_THREADS at htid; omega
      · rw [← he, hU] at hc; exact ThreadState.noConfusion hc.2
    refine ⟨⟨?_, ?_, ?_, ?_⟩, ?_, by rw [← hs'], by rw [← hs']⟩
    · rw [hcap', hts, hinc, hs.count_eq]
      omega
    · rw [hcur', hts]
      rcases hs.cur_ok with hc | hc
      · exact Or.inl hc
      · right
        exact ⟨hc.1, by rw [Function.update_noteq (Ne.symm htc)]; exact hc.2⟩
    · intro i hi
      rw [hts] at hi
      rw [hcur']
      by_cases hit : i = tid
      · rw [hit, Function.update_same] at hi; exact ThreadState.noConfusion hi
      · rw [Function.update_noteq hit] at hi
        exact hs.running_unique i hi
    · intro i hi
      have hit : i ≠ tid := by intro he; rw [he] at hi; omega
      rw [hts, Function.update_noteq hit]
      exact hs.high_uncaptured i hi
    · rw [hcap', hinc]

lemma invC_deferredUncapture {uncb : UncaptureCallback} {s s' : SpinState}
    (hs : InvC s) (h : TG_deferredUncapture uncb s = some s') : InvC s' := by
  rcases deferredUncapture_some_iff.mp h with ⟨-, hss⟩ | ⟨-, -, -, t, ht, hts⟩
  · rw [← hss]; exact hs
  · have := (invC_uncapture hs ht).1
    exact invC_congr this (by rw [← hts]) (by rw [← hts]) (by rw [← hts])

lemma deferredUncapture_flag {uncb : UncaptureCallback} {s s' : SpinState}
    (h : TG_deferredUncapture uncb s = some s') :
    s'.executorInSyscall = false := by
  rcases deferredUncapture_some_iff.mp h with ⟨hf, hss⟩ | ⟨-, -, -, t, -, hts⟩
  · rw [← hss]; exact hf
  · rw [← hts]

lemma invC_parkOrClaim {tid : Nat} {s s' : SpinState} (hs : InvC s)
    (h : TG_parkOrClaim tid s = some s') :
    InvC s' ∧ s'.executorInSyscall = s.executorInSyscall := by
  rcases parkOrClaim_some_iff.mp h with ⟨-, hss⟩ | ⟨-, -, hss⟩
  · rw [← hss]; exact ⟨hs, rfl⟩
  · exact ⟨invC_congr hs (by rw [← hss]) (by rw [← hss]) (by rw [← hss]),
      by rw [← hss]⟩

lemma invC_traceGuard {uncb : UncaptureCallback} {tid : Nat} {ctxt : PinContext}
    {s s' : SpinState} (htid : tid < MAX_THREADS) (hs : InvC s)
    (h : TraceGuard uncb tid ctxt s = some s') : InvC s' := by
  unfold TraceGuard at h
  dsimp only at h
  have hs0 : InvC { s with contexts := Function.update s.contexts tid ctxt } :=
    invC_congr hs rfl rfl rfl
  split_ifs at h with h1 h2 h3 h4
  · have hss := Option.some.inj h
    exact invC_congr hs0 (by rw [← hss]) (by rw [← hss]) (by rw [← hss])
  · obtain ⟨s1, hcap, hrest⟩ := Option.bind_eq_some.mp h
    obtain ⟨s2, hdef, hpark⟩ := Option.bind_eq_some.mp hrest
    have h1' := (invC_captureSection htid hs0 hcap).1
    have h2' := invC_deferredUncapture h1' hdef
    exact (invC_parkOrClaim h2' hpark).1

/-- `TraceGuard` always leaves `executorInSyscall` cleared: the fast path
clears it explicitly, and the capture path either finds it clear or clears
it in the deferred-uncapture section. -/
lemma traceGuard_clears_syscall {uncb : UncaptureCallback} {tid : Nat}
    {ctxt : PinContext} {s s' : SpinState}
    (h : TraceGuard uncb tid ctxt s = some s') :
    s'.executorInSyscall = false := by
  unfold TraceGuard at h
  dsimp only at h
  split_ifs at h with h1 h2 h3 h4
  · rw [← Option.some.inj h]
  · obtain ⟨s1, hcap, hrest⟩ := Option.bind_eq_some.mp h
    obtain ⟨s2, hdef, hpark⟩ := Option.bind_eq_some.mp hrest
    have hflag := deferredUncapture_flag hdef
    rcases parkOrClaim_some_iff.mp hpark with ⟨-, hss⟩ | ⟨-, -, hss⟩
    · rw [← hss]; exact hflag
    · rw [← hss]; exact hflag

lemma invC_tgWakeup {tid : Nat} {s s' : SpinState} (hs : InvC s)
    (h : TG_wakeup tid s = some s') : InvC s' := by
  rcases tgWakeup_some_iff.mp h with ⟨-, hss⟩ | ⟨-, -, -, hss⟩ | ⟨-, -, hss⟩ <;>
    exact invC_congr hs (by rw [← hss]) (by rw [← hss]) (by rw [← hss])

lemma invC_syscallGuard {uncb : UncaptureCallback} {tid : Nat} {ctxt : PinContext}
    {s s' : SpinState} (hs : InvC s)
    (h : SyscallGuard uncb tid ctxt s = some s') : InvC s' := by
  unfold SyscallGuard at h
  dsimp only at h
  have hs0 : InvC { s with contexts := Function.update s.contexts s.curTid ctxt } :=
    invC_congr hs rfl rfl rfl
  split_ifs at h with h1 h2 h3 h4 h5
  all_goals first
    | exact Option.noConfusion h
    | (obtain ⟨t, ht, hts⟩ := Option.map_eq_some'.mp h
       exact invC_congr (invC_uncapture hs0 ht).1
         (by rw [← hts]) (by rw [← hts]) (by rw [← hts]))
    | (have hss := Option.some.inj h
       exact invC_congr hs0 (by rw [← hss]) (by rw [← hss]) (by rw [← hss]))

lemma invC_switchHandler {tid : Nat} {ctxt : PinContext} {s s' : SpinState}
    (hs : InvC s) (h : SwitchHandler tid ctxt s = some s') : InvC s' := by
  obtain ⟨-, -, hne, -, hlt, hIDLE, hRUN, hs'⟩ := switchHandler_some_iff.mp h
  set n := getReg ctxt switchReg with hn
  have hcur_lt : s.curTid < MAX_THREADS := invC_cur_lt hs hRUN
  have hpos : 1 ≤ s.capturedThreads := invC_captured_pos hs hRUN
  have hle : s.capturedThreads ≤ MAX_THREADS := invC_captured_le hs
  have hdec : dec32 s.capturedThreads = s.capturedThreads - 1 :=
    dec32_eq hpos (by unfold MAX_THREADS at hle; omega)
  by_cases hflag : s.blockAfterSwitchcall
  case pos =>
    rw [if_pos hflag] at hs'
    have hts : s'.threadStates
        = Function.update (Function.update s.threadStates s.curTid BLOCKED) n RUNNING := by
      rw [← hs']
    have hcur' : s'.curTid = n := by rw [← hs']
    have hcap' : s'.capturedThreads = dec32 s.capturedThreads := by rw [← hs']
    have hc1 := countCaptured_update s.threadStates s.curTid BLOCKED hcur_lt
    rw [hRUN] at hc1
    simp only [isCaptured_RUNNING, isCaptured_BLOCKED, Bool.false_eq_true,
      if_true, if_false] at hc1
    have hc2 := countCaptured_update
      (Function.update s.threadStates s.curTid BLOCKED) n RUNNING hlt
    rw [Function.update_noteq hne, hIDLE] at hc2
    simp only [isCaptured_IDLE, isCaptured_RUNNING, if_true] at hc2
    constructor
    · rw [hcap', hts, hdec, hs.count_eq]
      omega
    · right
      rw [hcur', hts]
      exact ⟨hlt, by rw [Function.update_same]⟩
    · intro i hi
      rw [hts] at hi
      rw [hcur']
      by_cases hin : i = n
      · exact hin
      · rw [Function.update_noteq hin] at hi
        by_cases hic : i = s.curTid
        · rw [hic, Function.update_same] at hi; exact ThreadState.noConfusion hi
        · rw [Function.update_noteq hic] at hi
          exact absurd (hs.running_unique i hi) hic
    · intro i hi
      have hin : i ≠ n := by intro he; rw [he] at hi; omega
      have hic : i ≠ s.curTid := by intro he; rw [he] at hi; omega
      rw [hts, Function.update_noteq hin, Function.update_noteq hic]
      exact hs.high_uncaptured i hi
  case neg =>
    rw [if_neg hflag] at hs'
    have hts : s'.threadStates
        = Function.update (Function.update s.threadStates s.curTid IDLE) n RUNNING := by
      rw [← hs']
    have hcur' : s'.curTid = n := by rw [← hs']
    have hcap' : s'.capturedThreads = s.capturedThreads := by rw [← hs']
    have hc1 := countCaptured_update s.threadStates s.curTid IDLE hcur_lt
    rw [hRUN] at hc1
    simp only [isCaptured_RUNNING, isCaptured_IDLE, if_true] at hc1
    have hc2 := countCaptured_update
      (Function.update s.threadStates s.curTid IDLE) n RUNNING hlt
    rw [Function.update_noteq hne, hIDLE] at hc2
    simp only [isCaptured_IDLE, isCaptured_RUNNING, if_true] at hc2
    constructor
    · rw [hcap', hts, hs.count_eq]
      omega
    · right
      rw [hcur', hts]
      exact ⟨hlt, by rw [Function.update_same]⟩
    · intro i hi
      rw [hts] at hi
      rw [hcur']
      by_cases hin : i = n
      · exact hin
      · rw [Function.update_noteq hin] at hi
        by_cases hic : i = s.curTid
        · rw [hic, Function.update_same] at hi; exact ThreadState.noConfusion hi
        · rw [Function.update_noteq hic] at hi
          exact absurd (hs.running_unique i hi) hic
    · intro i hi
      have hin : i ≠ n := by intro he; rw [he] at hi; omega
      have hic : i ≠ s.curTid := by intro he; rw [he] at hi; omega
      rw [hts, Function.update_noteq hin, Function.update_noteq hic]
      exact hs.high_uncaptured i hi

lemma invC_blockIdle {tid : Nat} {s s' : SpinState} (hs : InvC s)
    (h : blockIdleThread tid s = some s') : InvC s' := by
  obtain ⟨hlt, hIDLE, hcap, hs'⟩ := blockIdleThread_some_iff.mp h
  have hts : s'.threadStates = Function.update s.threadStates tid BLOCKED := by
    rw [← hs']
  have hcur' : s'.curTid = s.curTid := by rw [← hs']
  have hcap' : s'.capturedThreads = dec32 s.capturedThreads := by rw [← hs']
  have hle : s.capturedThreads ≤ MAX_THREADS := invC_captured_le hs
  have hdec : dec32 s.capturedThreads = s.capturedThreads - 1 :=
    dec32_eq (by omega) (by unfold MAX_THREADS at hle; omega)
  have hc1 := countCaptured_update s.threadStates tid BLOCKED hlt
  rw [hIDLE] at hc1
  simp only [isCaptured_IDLE, isCaptured_BLOCKED, Bool.false_eq_true,
    if_true, if_false] at hc1
  have htc : tid ≠ s.curTid := by
    intro he
    rcases hs.cur_ok with hc | hc
    · rw [he, hc] at hlt; unfold NONE32 MAX_THREADS at hlt; omega
    · rw [← he, hIDLE] at hc; exact ThreadState.noConfusion hc.2
  constructor
  · rw [hcap', hts, hdec, hs.count_eq]
    omega
  · rw [hcur', hts]
    rcases hs.cur_ok with hc | hc
    · exact Or.inl hc
    · right
      exact ⟨hc.1, by rw [Function.update_noteq (Ne.symm htc)]; exact hc.2⟩
  · intro i hi
    rw [hts] at hi
    rw [hcur']
    by_cases hit : i = tid
    · rw [hit, Function.update_same] at hi; exact ThreadState.noConfusion hi
    · rw [Function.update_noteq hit] at hi
      exact hs.running_unique i hi
  · intro i hi
    have hit : i ≠ tid := by intro he; rw [he] at hi; omega
    rw [hts, Function.update_noteq hit]
    exact hs.high_uncaptured i hi

lemma invC_unblock {tid : Nat} {s s' : SpinState} (hs : InvC s)
    (h : unblock tid s = some s') : InvC s' := by
  obtain ⟨hlt, hBLK, hs'⟩ := unblock_some_iff.mp h
  have hts : s'.threadStates = Function.update s.threadStates tid IDLE := by
    rw [← hs']
  have hcur' : s'.curTid = s.curTid := by rw [← hs']
  have hcap' : s'.capturedThreads = inc32 s.capturedThreads := by rw [← hs']
  have hinc := captured_succ_le hs
  have hc1 := countCaptured_update s.threadStates tid IDLE hlt
  rw [hBLK] at hc1
  simp only [isCaptured_IDLE, isCaptured_BLOCKED, Bool.false_eq_true,
    if_true, if_false] at hc1
  have htc : tid ≠ s.curTid := by
    intro he
    rcases hs.cur_ok with hc | hc
    · rw [he, hc] at hlt; unfold NONE32 MAX_THREADS at hlt; omega
    · rw [← he, hBLK] at hc; exact ThreadState.noConfusion hc.2
  constructor
  · rw [hcap', hts, hinc, hs.count_eq]
    omega
  · rw [hcur', hts]
    rcases hs.cur_ok with hc | hc
    · exact Or.inl hc
    · right
      exact ⟨hc.1, by rw [Function.update_noteq (Ne.symm htc)]; exact hc.2⟩
  · intro i hi
    rw [hts] at hi
    rw [hcur']
    by_cases hit : i = tid
    · rw [hit, Function.update_same] at hi; exact ThreadState.noConfusion hi
    · rw [Function.update_noteq hit] at hi
      exact hs.running_unique i hi
  · intro i hi
    have hit : i ≠ tid := by intro he; rw [he] at hi; omega
    rw [hts, Function.update_noteq hit]
    exact hs.high_uncaptured i hi

lemma invC_blockAfterSwitch {s s' : SpinState} (hs : InvC s)
    (h : blockAfterSwitch s = some s') : InvC s' := by
  obtain ⟨-, hs'⟩ := blockAfterSwitch_some_iff.mp h
  exact invC_congr hs (by rw [← hs']) (by rw [← hs']) (by rw [← hs'])

lemma invC_stepA {s s' : SpinState} (hs : InvC s) (h : StepA s s') : InvC s' := by
  cases h with
  | threadStart htid hop => exact invC_threadStart hs hop
  | threadFini htid hop => exact invC_threadFini hs hop
  | traceGuard htid hop => exact invC_traceGuard htid hs hop
  | tgWakeup htid hop => exact invC_tgWakeup hs hop
  | syscallGuard htid hop => exact invC_syscallGuard hs hop
  | switchHandler htid hop => exact invC_switchHandler hs hop
  | blockIdle hop => exact invC_blockIdle hs hop
  | unblockStep hop => exact invC_unblock hs hop
  | blockAfter hop => exact invC_blockAfterSwitch hs hop

lemma reachableA_invC {s : SpinState} (h : ReachableA s) : InvC s := by
  induction h with
  | init => exact invC_init
  | step _ hst ih => exact invC_stepA ih hst

lemma syscallGuard_some_iff {uncb : UncaptureCallback} {tid : Nat}
    {ctxt : PinContext} {s s' : SpinState} :
    SyscallGuard uncb tid ctxt s = some s' ↔
      s.executorTid = tid ∧
      ((s.curTid ≠ tid ∧ 2 ≤ s.capturedThreads ∧
          ∃ t, UncaptureAndSwitch uncb
              { s with contexts := Function.update s.contexts s.curTid ctxt } = some t ∧
            { t with
              contexts := Function.update t.contexts t.curTid
                (setReg (setReg (t.contexts t.curTid) executorReg 1) switchReg t.curTid) }
              = s') ∨
        (s.curTid = tid ∧ 2 ≤ s.capturedThreads ∧
          ∃ t, UncaptureAndSwitch uncb
              { s with contexts := Function.update s.contexts s.curTid ctxt } = some t ∧
            { t with
              executorTid := NONE32
              contexts := Function.update t.contexts tid
                (setReg (setReg (t.contexts tid) executorReg 0) switchReg NONE64) } = s') ∨
        (s.curTid = tid ∧ s.capturedThreads < 2 ∧ s.executorInSyscall = false ∧
          { s with
            executorInSyscall := true
            contexts := Function.update (Function.update s.contexts s.curTid ctxt) tid
              (setReg (setReg (Function.update s.contexts s.curTid ctxt tid) executorReg 0)
                switchReg NONE64) } = s')) := by
  unfold SyscallGuard
  dsimp only
  split_ifs with h1 h2 h3 h4 h5
  all_goals (try rw [Option.map_eq_some'])
  all_goals simp_all

lemma invS_of_flag_false {s' : SpinState} (h : s'.executorInSyscall = false) :
    InvS s' := by
  intro hf
  rw [h] at hf
  exact Bool.noConfusion hf

lemma invS_congr {s s' : SpinState} (hsS : InvS s)
    (hf : s'.executorInSyscall = s.executorInSyscall)
    (he : s'.executorTid = s.executorTid) (hc : s'.curTid = s.curTid)
    (ht : s'.threadStates = s.threadStates)
    (hcap : s'.capturedThreads = s.capturedThreads) : InvS s' := by
  intro hflag
  rw [hf] at hflag
  obtain ⟨a, b, c, d⟩ := hsS hflag
  exact ⟨by rw [he, hc]; exact a, by rw [hc]; exact b,
    by rw [ht, hc]; exact c, by rw [hcap]; exact d⟩

lemma invS_syscallGuard {uncb : UncaptureCallback} {tid : Nat} {ctxt : PinContext}
    {s s' : SpinState} (htid : tid < MAX_THREADS)
    (hsC : InvC s) (hsS : InvS s)
    (h : SyscallGuard uncb tid ctxt s = some s') : InvS s' := by
  obtain ⟨hexec, hcase⟩ := syscallGuard_some_iff.mp h
  rcases hcase with ⟨hne, hcap2, t, ht, hts⟩ | ⟨hcur, hcap2, t, ht, hts⟩ |
    ⟨hcur, hcap2, hflag0, hts⟩
  · refine invS_of_flag_false ?_
    have htf : t.executorInSyscall = s.executorInSyscall := by
      obtain ⟨-, -, -, ht'⟩ := uncapture_some_iff.mp ht
      rw [ht']
    have hsf : s'.executorInSyscall = t.executorInSyscall := by rw [← hts]
    rw [hsf, htf]
    cases hfl : s.executorInSyscall
    · rfl
    · exfalso
      obtain ⟨ha, -, -, -⟩ := hsS hfl
      rw [hexec] at ha
      exact hne ha.symm
  · refine invS_of_flag_false ?_
    have htf : t.executorInSyscall = s.executorInSyscall := by
      obtain ⟨-, -, -, ht'⟩ := uncapture_some_iff.mp ht
      rw [ht']
    have hsf : s'.executorInSyscall = t.executorInSyscall := by rw [← hts]
    rw [hsf, htf]
    cases hfl : s.executorInSyscall
    · rfl
    · exfalso
      obtain ⟨-, -, -, hd⟩ := hsS hfl
      omega
  · intro _
    have hcur_lt : s.curTid < MAX_THREADS := by rw [hcur]; exact htid
    have hcurR : s.threadStates s.curTid = RUNNING := by
      rcases hsC.cur_ok with hc | hc
      · rw [hc] at hcur_lt; unfold NONE32 MAX_THREADS at hcur_lt; omega
      · exact hc.2
    have hpos : 1 ≤ s.capturedThreads := invC_captured_pos hsC hcurR
    refine ⟨?_, ?_, ?_, ?_⟩
    · rw [← hts, hexec, hcur]
    · rw [← hts]; exact hcur_lt
    · rw [← hts]; exact hcurR
    · rw [← hts]; dsimp only; omega

lemma invS_switchHandler {tid : Nat} {ctxt : PinContext} {s s' : SpinState}
    (hsC : InvC s) (hsS : InvS s)
    (h : SwitchHandler tid ctxt s = some s') : InvS s' := by
  obtain ⟨-, -, hne, -, hlt, hIDLE, hRUN, hs'⟩ := switchHandler_some_iff.mp h
  set n := getReg ctxt switchReg with hn
  have hcur_lt : s.curTid < MAX_THREADS := invC_cur_lt hsC hRUN
  have hflag : s.executorInSyscall = false := by
    cases hfl : s.executorInSyscall
    · rfl
    · exfalso
      obtain ⟨-, -, -, hd⟩ := hsS hfl
      have hupd := countCaptured_update s.threadStates n UNCAPTURED hlt
      rw [hIDLE] at hupd
      simp only [isCaptured_IDLE, isCaptured_UNCAPTURED, Bool.false_eq_true,
        if_true, if_false] at hupd
      have hge : 1 ≤ countCaptured (Function.update s.threadStates n UNCAPTURED) := by
        refine countCaptured_pos _ s.curTid hcur_lt ?_
        rw [Function.update_noteq (Ne.symm hne), hRUN]
        rfl
      have := hsC.count_eq
      omega
  refine invS_of_flag_false ?_
  rw [← hs']
  split_ifs <;> exact hflag

lemma invS_tgWakeup {tid : Nat} {s s' : SpinState} (hsC : InvC s) (hsS : InvS s)
    (h : TG_wakeup tid s = some s') : InvS s' := by
  rcases tgWakeup_some_iff.mp h with ⟨-, hss⟩ | ⟨-, hexecN, -, hss⟩ | ⟨-, -, hss⟩
  · exact invS_congr hsS (by rw [← hss]) (by rw [← hss]) (by rw [← hss])
      (by rw [← hss]) (by rw [← hss])
  · refine invS_of_flag_false ?_
    have hsf : s'.executorInSyscall = s.executorInSyscall := by rw [← hss]
    rw [hsf]
    cases hfl : s.executorInSyscall
    · rfl
    · exfalso
      obtain ⟨ha, hb, -, -⟩ := hsS hfl
      rw [hexecN] at ha
      rw [← ha] at hb
      unfold NONE32 MAX_THREADS at hb
      omega
  · exact invS_congr hsS (by rw [← hss]) (by rw [← hss]) (by rw [← hss])
      (by rw [← hss]) (by rw [← hss])

lemma invS_stepRestricted {s s' : SpinState} (hsC : InvC s) (hsS : InvS s)
    (h : Step s s') : InvS s' := by
  cases h with
  | threadStart htid hop =>
    obtain ⟨-, hs'⟩ := threadStart_some_iff.mp hop
    exact invS_congr hsS (by rw [← hs']) (by rw [← hs']) (by rw [← hs'])
      (by rw [← hs']) (by rw [← hs'])
  | threadFini htid hop =>
    obtain ⟨-, hs'⟩ := threadFini_some_iff.mp hop
    exact invS_congr hsS (by rw [← hs']) (by rw [← hs']) (by rw [← hs'])
      (by rw [← hs']) (by rw [← hs'])
  | traceGuard htid hop => exact invS_of_flag_false (traceGuard_clears_syscall hop)
  | tgWakeup htid hop => exact invS_tgWakeup hsC hsS hop
  | syscallGuard htid hop => exact invS_syscallGuard htid hsC hsS hop
  | switchHandler htid hop => exact invS_switchHandler hsC hsS hop
  | blockIdle hf hop =>
    obtain ⟨-, -, -, hs'⟩ := blockIdleThread_some_iff.mp hop
    refine invS_of_flag_false ?_
    rw [← hs']
    exact hf
  | unblockStep hf hop =>
    obtain ⟨-, -, hs'⟩ := unblock_some_iff.mp hop
    refine invS_of_flag_false ?_
    rw [← hs']
    exact hf
  | blockAfter hf hop =>
    obtain ⟨-, hs'⟩ := blockAfterSwitch_some_iff.mp hop
    refine invS_of_flag_false ?_
    rw [← hs']
    exact hf

lemma stepA_of_step {s s' : SpinState} (h : Step s s') : StepA s s' := by
  cases h with
  | threadStart htid hop => exact StepA.threadStart htid hop
  | threadFini htid hop => exact StepA.threadFini htid hop
  | traceGuard htid hop => exact StepA.traceGuard htid hop
  | tgWakeup htid hop => exact StepA.tgWakeup htid hop
  | syscallGuard htid hop => exact StepA.syscallGuard htid hop
  | switchHandler htid hop => exact StepA.switchHandler htid hop
  | blockIdle _ hop => exact StepA.blockIdle hop
  | unblockStep _ hop => exact StepA.unblockStep hop
  | blockAfter _ hop => exact StepA.blockAfter hop

lemma reachable_inv {s : SpinState} (h : Reachable s) : InvC s ∧ InvS s := by
  induction h with
  | init =>
    exact ⟨invC_init, invS_of_flag_false rfl⟩
  | step _ hst ih =>
    exact ⟨invC_stepA ih.1 (stepA_of_step hst), invS_stepRestricted ih.1 ih.2 hst⟩

/- ## Concrete sample runs used by the witnesses -/

/-- An uncapture hook that always picks thread 1. -/
def u1 : UncaptureCallback := fun _ _ => 1

/-- An uncapture hook that returns an out-of-range tid. -/
def uBig : UncaptureCallback := fun _ _ => MAX_THREADS

/-- A zeroed live context. -/
def c0 : PinContext := fun _ => 0

/-- A live context with `executorReg = 1` and `switchReg = 1`. -/
def cOne : PinContext := fun _ => 1

/-- A live context with `executorReg = 1` and `switchReg = 0`. -/
def cSame : PinContext := fun r => if r = switchReg then 0 else 1

/-- State after thread 0 is captured first (RUNNING, executor). -/
def wsA : SpinState := (TraceGuard u1 0 c0 initState).getD initState

/-- State after thread 1 is additionally captured (IDLE, parked). -/
def wsB : SpinState := (TraceGuard u1 1 c0 wsA).getD initState

/-- State after the sole captured thread 0 defers its own syscall. -/
def wsC : SpinState := (SyscallGuard u1 0 c0 wsA).getD initState

/-- Result of an uncapture-and-switch from `wsB`. -/
def wsU : SpinState := (UncaptureAndSwitch u1 wsB).getD initState

/-- `wsB` with the one-shot block-after-switchcall flag armed. -/
def wsBf : SpinState := (blockAfterSwitch wsB).getD initState

/-- A two-thread state parked mid-deferred-syscall (`executorInSyscall`). -/
def sDef : SpinState :=
  { threadStates :=
      Function.update (Function.update (fun _ => UNCAPTURED) 0 RUNNING) 1 IDLE
    contexts := fun _ _ => 0
    executorTid := 0
    curTid := 0
    capturedThreads := 2
    executorInSyscall := true
    blockAfterSwitchcall := false
    events := [] }

lemma wsA_eq : TraceGuard u1 0 c0 initState = some wsA := rfl

lemma wsB_eq : TraceGuard u1 1 c0 wsA = some wsB := rfl

lemma wsC_eq : SyscallGuard u1 0 c0 wsA = some wsC := rfl

lemma reachA_wsA : ReachableA wsA :=
  ReachableA.step ReachableA.init (StepA.traceGuard (by decide) wsA_eq)

lemma reachA_wsB : ReachableA wsB :=
  ReachableA.step reachA_wsA (StepA.traceGuard (by decide) wsB_eq)

lemma reach_wsC : Reachable wsC :=
  Reachable.step
    (Reachable.step Reachable.init (Step.traceGuard (by decide) wsA_eq))
    (Step.syscallGuard (by decide) wsC_eq)

/- ## The claims -/

lemma isCaptured_iff (st : ThreadState) :
    isCaptured st = decide (st = IDLE ∨ st = RUNNING) := by
  cases st <;> rfl

/-- C1: In every state reachable by any sequence of capture,
uncapture-and-switch, switch, block and unblock operations (observed when
the global lock is not held), the counter `capturedThreads` equals the
number of logical threads whose state is IDLE or RUNNING; threads in
BLOCKED or UNCAPTURED are not counted. -/
theorem C1_capturedThreads_counts_schedulable {s : SpinState}
    (h : ReachableA s) :
    s.capturedThreads = (List.range MAX_THREADS).countP
      (fun i => decide (s.threadStates i = IDLE ∨ s.threadStates i = RUNNING)) := by
  rw [(reachableA_invC h).count_eq]
  unfold countCaptured
  exact List.countP_congr (fun a _ => by rw [isCaptured_iff])

theorem C1_witness :
    initState.capturedThreads = (List.range MAX_THREADS).countP
        (fun i => decide (initState.threadStates i = IDLE ∨
          initState.threadStates i = RUNNING)) ∧
    wsB.capturedThreads = (List.range MAX_THREADS).countP
        (fun i => decide (wsB.threadStates i = IDLE ∨
          wsB.threadStates i = RUNNING)) :=
  ⟨C1_capturedThreads_counts_schedulable ReachableA.init,
   C1_capturedThreads_counts_schedulable reachA_wsB⟩

/-- C2: `UncaptureAndSwitch` invokes the uncapture hook with the outgoing
thread `curTid` and its saved context; a returned tid that is out of range
or not IDLE is fatal; otherwise `capturedThreads` is decremented, the
outgoing thread goes RUNNING → UNCAPTURED, the returned thread goes
IDLE → RUNNING, and `curTid` becomes the returned thread. -/
theorem C2_uncaptureAndSwitch_spec (uncb : UncaptureCallback) (s : SpinState) :
    (MAX_THREADS ≤ uncb s.curTid (s.contexts s.curTid) →
      UncaptureAndSwitch uncb s = none) ∧
    (s.threadStates (uncb s.curTid (s.contexts s.curTid)) ≠ IDLE →
      UncaptureAndSwitch uncb s = none) ∧
    (∀ s', UncaptureAndSwitch uncb s = some s' →
      s'.events = s.events ++ [SpinEvent.uncapture s.curTid (s.contexts s.curTid)] ∧
      uncb s.curTid (s.contexts s.curTid) < MAX_THREADS ∧
      s.threadStates (uncb s.curTid (s.contexts s.curTid)) = IDLE ∧
      s.threadStates s.curTid = RUNNING ∧
      s'.capturedThreads = dec32 s.capturedThreads ∧
      s'.threadStates s.curTid = UNCAPTURED ∧
      s'.threadStates (uncb s.curTid (s.contexts s.curTid)) = RUNNING ∧
      s'.curTid = uncb s.curTid (s.contexts s.curTid)) := by
  refine ⟨?_, ?_, ?_⟩
  · intro hbig
    unfold UncaptureAndSwitch
    dsimp only
    rw [if_neg (by omega)]
  · intro hnotIdle
    unfold UncaptureAndSwitch
    dsimp only
    split_ifs with h1 h2 h3
    all_goals first
      | rfl
      | exact absurd (by assumption) hnotIdle
  · intro s' h
    obtain ⟨hn1, hn2, hcurR, hs'⟩ := uncapture_some_iff.mp h
    have hne : uncb s.curTid (s.contexts s.curTid) ≠ s.curTid := by
      intro he; rw [he, hcurR] at hn2; exact ThreadState.noConfusion hn2
    refine ⟨by rw [hs'], hn1, hn2, hcurR, by rw [hs'], ?_, ?_, by rw [hs']⟩
    · rw [hs']
      dsimp only
      rw [Function.update_noteq (Ne.symm hne), Function.update_same]
    · rw [hs']
      dsimp only
      rw [Function.update_same]

theorem C2_witness :
    wsU.events = wsB.events ++ [SpinEvent.uncapture 0 (wsB.contexts 0)] ∧
    wsU.capturedThreads = 1 ∧ wsU.threadStates 0 = UNCAPTURED ∧
    wsU.threadStates 1 = RUNNING ∧ wsU.curTid = 1 ∧
    UncaptureAndSwitch uBig wsB = none := by
  have h := (C2_uncaptureAndSwitch_spec u1 wsB).2.2 wsU rfl
  have hbad := (C2_uncaptureAndSwitch_spec uBig wsB).1 (by decide)
  exact ⟨h.1, h.2.2.2.2.1, h.2.2.2.2.2.1, h.2.2.2.2.2.2.1, h.2.2.2.2.2.2.2, hbad⟩

/-- C3: `capturedThreads` never drops below 1 through an uncapture: when the
executor blocks as the sole captured thread (`tid = curTid`,
`capturedThreads = 1`), the syscall guard performs no uncapture-and-switch
and merely sets `executorInSyscall`, leaving the count at 1; the deferred
uncapture-and-switch is performed by the next thread entering the capture
guard, which clears executor identity and the flag; and a successful
uncapture-and-switch from a reachable state leaves at least one captured
thread. -/
theorem C3_deferred_uncapture_protocol :
    (∀ (uncb : UncaptureCallback) (tid : Nat) (ctxt : PinContext) (s : SpinState),
      s.executorTid = tid → s.curTid = tid → s.capturedThreads = 1 →
      s.executorInSyscall = false →
      (SyscallGuard uncb tid ctxt s).isSome = true ∧
      (∀ s', SyscallGuard uncb tid ctxt s = some s' →
        s'.executorInSyscall = true ∧ s'.capturedThreads = 1 ∧
        s'.threadStates = s.threadStates ∧ s'.curTid = s.curTid ∧
        s'.executorTid = s.executorTid ∧ s'.events = s.events)) ∧
    (∀ (uncb : UncaptureCallback) (s s' : SpinState),
      s.executorInSyscall = true → TG_deferredUncapture uncb s = some s' →
      s'.executorTid = NONE32 ∧ s'.executorInSyscall = false ∧
      s'.events = s.events ++ [SpinEvent.uncapture s.curTid (s.contexts s.curTid)]) ∧
    (∀ (uncb : UncaptureCallback) (s s' : SpinState), ReachableA s →
      UncaptureAndSwitch uncb s = some s' → 1 ≤ s'.capturedThreads) := by
  refine ⟨?_, ?_, ?_⟩
  · intro uncb tid ctxt s hexec hcur hcap hflag
    have hres : SyscallGuard uncb tid ctxt s = some
        { s with
          executorInSyscall := true
          contexts := Function.update (Function.update s.contexts s.curTid ctxt) tid
            (setReg (setReg (Function.update s.contexts s.curTid ctxt tid) executorReg 0)
              switchReg NONE64) } := by
      rw [syscallGuard_some_iff]
      exact ⟨hexec, Or.inr (Or.inr ⟨hcur, by omega, hflag, rfl⟩)⟩
    refine ⟨by rw [hres]; rfl, ?_⟩
    intro s' h
    rw [hres] at h
    have hss := Option.some.inj h
    exact ⟨by rw [← hss], by rw [← hss]; exact hcap, by rw [← hss],
      by rw [← hss], by rw [← hss], by rw [← hss]⟩
  · intro uncb s s' hflag h
    rcases deferredUncapture_some_iff.mp h with ⟨hf, -⟩ | ⟨-, -, -, t, ht, hts⟩
    · rw [hflag] at hf; exact Bool.noConfusion hf
    · obtain ⟨-, -, -, ht'⟩ := uncapture_some_iff.mp ht
      refine ⟨by rw [← hts], by rw [← hts], ?_⟩
      have : t.events = s.events ++ [SpinEvent.uncapture s.curTid (s.contexts s.curTid)] := by
        rw [ht']
      rw [← hts]
      exact this
  · intro uncb s s' hreach h
    exact (invC_uncapture (reachableA_invC hreach) h).2.2

theorem C3_witness :
    wsC.executorInSyscall = true ∧ wsC.capturedThreads = 1 ∧
    wsC.threadStates = wsA.threadStates ∧ wsC.curTid = wsA.curTid ∧
    wsC.executorTid = wsA.executorTid ∧ wsC.events = wsA.events ∧
    (∀ s', TG_deferredUncapture u1 sDef = some s' →
      s'.executorTid = NONE32 ∧ s'.executorInSyscall = false ∧
      s'.events = sDef.events ++
        [SpinEvent.uncapture sDef.curTid (sDef.contexts sDef.curTid)]) ∧
    1 ≤ wsU.capturedThreads := by
  have h1 := ((C3_deferred_uncapture_protocol).1 u1 0 c0 wsA rfl rfl rfl rfl).2 wsC wsC_eq
  refine ⟨h1.1, h1.2.1, h1.2.2.1, h1.2.2.2.1, h1.2.2.2.2.1, h1.2.2.2.2.2, ?_, ?_⟩
  · intro s' h
    exact (C3_deferred_uncapture_protocol).2.1 u1 sDef s' rfl h
  · exact (C3_deferred_uncapture_protocol).2.2 u1 wsB wsU reachA_wsB rfl

/-- Result of a switchcall 0 → 1 from `wsB` (flag clear). -/
def wsD : SpinState := (SwitchHandler 0 cOne wsB).getD initState

/-- Result of a switchcall 0 → 1 from `wsBf` (flag armed). -/
def wsDf : SpinState := (SwitchHandler 0 cOne wsBf).getD initState

/-- Result of the first capture section on `initState`. -/
def wsE : SpinState := (TG_captureSection 0 initState).getD initState

/-- Result of a non-first capture section on `wsA`. -/
def wsF : SpinState := (TG_captureSection 1 wsA).getD initState

/-- Result of the thread-finish notification for thread 0 on `wsA`. -/
def wsG : SpinState := (ThreadFini 0 wsA).getD initState

lemma getReg_setReg_same (c : PinContext) (r v : Nat) :
    getReg (setReg c r v) r = v := by
  unfold getReg setReg
  rw [Function.update_same]

lemma getReg_setReg_noteq (c : PinContext) (r r' v : Nat) (h : r' ≠ r) :
    getReg (setReg c r v) r' = getReg c r' := by
  unfold getReg setReg
  rw [Function.update_noteq h]

/-- C4: on a valid switchcall the Switch Handler marks the outgoing
(currently RUNNING) thread IDLE; if the one-shot block-after-switch flag is
armed it instead marks it BLOCKED, decrements `capturedThreads`, and
consumes the flag; in both cases the requested thread becomes RUNNING,
`curTid` is set to it, and control transfers to its saved context as the
new executor. -/
theorem C4_switch_transition {tid : Nat} {ctxt : PinContext} {s s' : SpinState}
    (h : SwitchHandler tid ctxt s = some s') :
    s.threadStates s.curTid = RUNNING ∧
    (s.blockAfterSwitchcall = false →
      s'.threadStates s.curTid = IDLE ∧
      s'.capturedThreads = s.capturedThreads ∧
      s'.blockAfterSwitchcall = false) ∧
    (s.blockAfterSwitchcall = true →
      s'.threadStates s.curTid = BLOCKED ∧
      s'.capturedThreads = dec32 s.capturedThreads ∧
      s'.blockAfterSwitchcall = false) ∧
    s'.threadStates (getReg ctxt switchReg) = RUNNING ∧
    s'.curTid = getReg ctxt switchReg ∧
    getReg (s'.contexts s'.curTid) executorReg = 1 ∧
    getReg (s'.contexts s'.curTid) switchReg = s'.curTid := by
  obtain ⟨hex, hexec, hne, hle, hlt, hIDLE, hRUN, hs'⟩ := switchHandler_some_iff.mp h
  have hcne : s.curTid ≠ getReg ctxt switchReg := Ne.symm hne
  by_cases hbf : s.blockAfterSwitchcall = true
  · rw [if_pos hbf] at hs'
    refine ⟨hRUN, ?_, ?_, ?_, ?_, ?_, ?_⟩
    · intro hff; rw [hff] at hbf; exact Bool.noConfusion hbf
    · intro _
      refine ⟨?_, by rw [← hs'], by rw [← hs']⟩
      rw [← hs']
      dsimp only
      rw [Function.update_noteq hcne, Function.update_same]
    · rw [← hs']
      dsimp only
      rw [Function.update_same]
    · rw [← hs']
    · rw [← hs']
      dsimp only
      rw [Function.update_same, getReg_setReg_noteq _ _ _ _ (by decide),
        getReg_setReg_same]
    · rw [← hs']
      dsimp only
      rw [Function.update_same, getReg_setReg_same]
  · have hbf' : s.blockAfterSwitchcall = false := by
      cases hq : s.blockAfterSwitchcall
      · rfl
      · exact absurd hq hbf
    rw [if_neg hbf] at hs'
    refine ⟨hRUN, ?_, ?_, ?_, ?_, ?_, ?_⟩
    · intro _
      refine ⟨?_, by rw [← hs'], by rw [← hs']; exact hbf'⟩
      rw [← hs']
      dsimp only
      rw [Function.update_noteq hcne, Function.update_same]
    · intro hff; exact absurd hff hbf
    · rw [← hs']
      dsimp only
      rw [Function.update_same]
    · rw [← hs']
    · rw [← hs']
      dsimp only
      rw [Function.update_same, getReg_setReg_noteq _ _ _ _ (by decide),
        getReg_setReg_same]
    · rw [← hs']
      dsimp only
      rw [Function.update_same, getReg_setReg_same]

theorem C4_witness :
    wsD.threadStates 0 = IDLE ∧ wsD.capturedThreads = wsB.capturedThreads ∧
    wsD.threadStates 1 = RUNNING ∧ wsD.curTid = 1 ∧
    getReg (wsD.contexts wsD.curTid) executorReg = 1 ∧
    wsDf.threadStates 0 = BLOCKED ∧
    wsDf.capturedThreads = dec32 wsBf.capturedThreads ∧
    wsDf.blockAfterSwitchcall = false ∧ wsDf.threadStates 1 = RUNNING := by
  have h1 := C4_switch_transition (rfl : SwitchHandler 0 cOne wsB = some wsD)
  have h2 := C4_switch_transition (rfl : SwitchHandler 0 cOne wsBf = some wsDf)
  exact ⟨(h1.2.1 rfl).1, (h1.2.1 rfl).2.1, h1.2.2.2.1, h1.2.2.2.2.1,
    h1.2.2.2.2.2.1, (h2.2.2.1 rfl).1, (h2.2.2.1 rfl).2.1,
    (h2.2.2.1 rfl).2.2, h2.2.2.2.1⟩

/-- C5 counterexample: in a well-formed executor state with the forced-block
flag armed, a switchcall request naming the same thread as current is NOT
permitted: `NeedsSwitch` does dispatch the handler, but the handler is
fatal (`panic`, modelled as `none`), refuting the claimed exception. -/
theorem C5_counterexample :
    wsBf.blockAfterSwitchcall = true ∧ wsBf.executorTid = 0 ∧
    wsBf.curTid = 0 ∧ wsBf.threadStates 0 = RUNNING ∧
    getReg cSame executorReg = 1 ∧ getReg cSame switchReg = wsBf.curTid ∧
    NeedsSwitch wsBf (getReg cSame switchReg) = true ∧
    SwitchHandler 0 cSame wsBf = none :=
  ⟨rfl, rfl, rfl, rfl, rfl, rfl, rfl, rfl⟩

/-- C5 (amended): the Switch Handler checks its preconditions with fatal
diagnostics: the caller must be the executor, the requested thread must be
in range and IDLE, and the requested thread must differ from `curTid` in
every case; when a forced block is requested, a request naming the current
thread still reaches the handler (NeedsSwitch dispatches it) but is
rejected as a fatal protocol violation. -/
theorem C5_switch_preconditions (tid : Nat) (ctxt : PinContext) (s : SpinState) :
    ((SwitchHandler tid ctxt s).isSome = true ↔
      (getReg ctxt executorReg = 1 ∧ s.executorTid = tid ∧
        getReg ctxt switchReg ≠ s.curTid ∧ s.curTid ≤ MAX_THREADS ∧
        getReg ctxt switchReg < MAX_THREADS ∧
        s.threadStates (getReg ctxt switchReg) = IDLE ∧
        s.threadStates s.curTid = RUNNING)) ∧
    (s.blockAfterSwitchcall = true → getReg ctxt switchReg = s.curTid →
      SwitchHandler tid ctxt s = none ∧
      NeedsSwitch s (getReg ctxt switchReg) = true) := by
  constructor
  · constructor
    · intro hi
      obtain ⟨s', hs'⟩ := Option.isSome_iff_exists.mp hi
      obtain ⟨a, b, c, d, e, f, g, -⟩ := switchHandler_some_iff.mp hs'
      exact ⟨a, b, c, d, e, f, g⟩
    · intro ⟨a, b, c, d, e, f, g⟩
      have := switchHandler_some_iff.mpr ⟨a, b, c, d, e, f, g, rfl⟩
      rw [this]
      rfl
  · intro hbf hsame
    constructor
    · unfold SwitchHandler
      dsimp only
      by_cases her : getReg ctxt executorReg = 1
      · rw [if_pos her, if_pos ⟨by rw [hbf], hsame⟩]
      · rw [if_neg her]
    · unfold NeedsSwitch
      rw [hbf, Bool.or_true]

theorem C5_witness :
    (SwitchHandler 0 cOne wsB).isSome = true ∧
    SwitchHandler 0 cSame wsBf = none ∧
    NeedsSwitch wsBf (getReg cSame switchReg) = true :=
  ⟨(C5_switch_preconditions 0 cOne wsB).1.mpr
      ⟨rfl, rfl, by decide, by decide, by decide, rfl, rfl⟩,
    ((C5_switch_preconditions 0 cSame wsBf).2 rfl rfl).1,
    ((C5_switch_preconditions 0 cSame wsBf).2 rfl rfl).2⟩

/-- C6: when an UNCAPTURED thread enters the capture guard, the capture hook
fires with `(tid, isFirstCaptured)` where `isFirstCaptured` holds iff
`capturedThreads` was 0 at entry; the thread becomes IDLE and
`capturedThreads` is incremented; the first captured thread becomes RUNNING
immediately and `curTid` (none beforehand) is set to it. -/
theorem C6_capture_transition {tid : Nat} {s s' : SpinState}
    (h : TG_captureSection tid s = some s') :
    s.threadStates tid = UNCAPTURED ∧
    s'.events = s.events ++ [SpinEvent.capture tid (decide (s.capturedThreads = 0))] ∧
    ((decide (s.capturedThreads = 0) : Bool) = true ↔ s.capturedThreads = 0) ∧
    s'.capturedThreads = inc32 s.capturedThreads ∧
    (s.capturedThreads = 0 →
      s'.threadStates tid = RUNNING ∧ s'.curTid = tid ∧ s.curTid = NONE32) ∧
    (s.capturedThreads ≠ 0 →
      s'.threadStates tid = IDLE ∧ s'.curTid = s.curTid) := by
  obtain ⟨hU, hcase⟩ := captureSection_some_iff.mp h
  have hdec : (decide (s.capturedThreads = 0) = true) ↔ s.capturedThreads = 0 :=
    ⟨of_decide_eq_true, decide_eq_true⟩
  rcases hcase with ⟨hc0, hcN, hs'⟩ | ⟨hcn, hs'⟩
  · refine ⟨hU, by rw [← hs'], hdec, by rw [← hs'], ?_, ?_⟩
    · intro _
      refine ⟨?_, by rw [← hs'], hcN⟩
      rw [← hs']
      dsimp only
      rw [Function.update_same]
    · intro hne
      exact absurd hc0 hne
  · refine ⟨hU, by rw [← hs'], hdec, by rw [← hs'], ?_, ?_⟩
    · intro hc0
      exact absurd hc0 hcn
    · intro _
      refine ⟨?_, by rw [← hs']⟩
      rw [← hs']
      dsimp only
      rw [Function.update_same]

theorem C6_witness :
    wsE.threadStates 0 = RUNNING ∧ wsE.curTid = 0 ∧ initState.curTid = NONE32 ∧
    wsE.capturedThreads = inc32 0 ∧
    wsE.events = initState.events ++ [SpinEvent.capture 0 true] ∧
    wsF.threadStates 1 = IDLE ∧ wsF.curTid = wsA.curTid ∧
    wsF.capturedThreads = inc32 wsA.capturedThreads := by
  have h1 := C6_capture_transition (rfl : TG_captureSection 0 initState = some wsE)
  have h2 := C6_capture_transition (rfl : TG_captureSection 1 wsA = some wsF)
  exact ⟨(h1.2.2.2.2.1 rfl).1, (h1.2.2.2.2.1 rfl).2.1, (h1.2.2.2.2.1 rfl).2.2,
    h1.2.2.2.1, h1.2.1, (h2.2.2.2.2.2 (by decide)).1,
    (h2.2.2.2.2.2 (by decide)).2, h2.2.2.2.1⟩

/-- C7: for an IDLE thread while `capturedThreads > 1` (a `uint32_t`, hence
below 2^32), `blockIdleThread` followed by `unblock` on the same id
restores the state exactly: the full executor state, including every other
thread's state, `curTid`, executor identity and the flags, is unchanged by
the pair. -/
theorem C7_blockIdle_unblock_roundtrip (tid : Nat) (s : SpinState)
    (hlt : tid < MAX_THREADS) (hIDLE : s.threadStates tid = IDLE)
    (hcap : 1 < s.capturedThreads) (hbound : s.capturedThreads < 4294967296) :
    (blockIdleThread tid s).bind (unblock tid) = some s := by
  unfold blockIdleThread
  rw [if_pos hlt, if_pos hIDLE, if_pos hcap]
  show unblock tid _ = some s
  unfold unblock
  dsimp only
  rw [if_pos hlt, if_pos (Function.update_same tid BLOCKED s.threadStates)]
  have hts : Function.update (Function.update s.threadStates tid BLOCKED) tid IDLE
      = s.threadStates := by
    rw [Function.update_idem, ← hIDLE]
    exact Function.update_eq_self tid s.threadStates
  have hcc : inc32 (dec32 s.capturedThreads) = s.capturedThreads := by
    unfold inc32 dec32
    omega
  rw [hts, hcc]

theorem C7_witness : (blockIdleThread 1 wsB).bind (unblock 1) = some wsB :=
  C7_blockIdle_unblock_roundtrip 1 wsB (by decide) (by decide) (by decide) (by decide)

/-- C8: the thread-finish notification is valid in exactly two cases: the
finishing thread is RUNNING and then must be the sole captured thread
(`capturedThreads = 1`), or it is already UNCAPTURED; in both cases the
finish hook fires, and no uncapture notification or state change occurs. -/
theorem C8_threadFini_spec (tid : Nat) (s : SpinState) :
    ((ThreadFini tid s).isSome = true ↔
      ((s.threadStates tid = RUNNING ∧ s.capturedThreads = 1) ∨
        s.threadStates tid = UNCAPTURED)) ∧
    (∀ s', ThreadFini tid s = some s' →
      s'.events = s.events ++ [SpinEvent.threadEnd tid] ∧
      s'.threadStates = s.threadStates ∧
      s'.capturedThreads = s.capturedThreads ∧
      s'.curTid = s.curTid ∧ s'.executorTid = s.executorTid) := by
  constructor
  · constructor
    · intro hi
      obtain ⟨s', hs'⟩ := Option.isSome_iff_exists.mp hi
      exact (threadFini_some_iff.mp hs').1
    · intro hp
      have h := threadFini_some_iff.mpr
        (⟨hp, rfl⟩ : _ ∧ ({ s with events := s.events ++ [SpinEvent.threadEnd tid] } = _))
      rw [h]
      rfl
  · intro s' h
    obtain ⟨-, hs'⟩ := threadFini_some_iff.mp h
    exact ⟨by rw [← hs'], by rw [← hs'], by rw [← hs'], by rw [← hs'],
      by rw [← hs']⟩

theorem C8_witness :
    (ThreadFini 0 wsA).isSome = true ∧
    wsG.events = wsA.events ++ [SpinEvent.threadEnd 0] ∧
    wsG.threadStates = wsA.threadStates ∧
    wsG.capturedThreads = wsA.capturedThreads ∧
    (ThreadFini 5 wsA).isSome = true := by
  have h1 := ((C8_threadFini_spec 0 wsA).1).mpr (Or.inl ⟨rfl, rfl⟩)
  have h2 := (C8_threadFini_spec 0 wsA).2 wsG rfl
  have h3 := ((C8_threadFini_spec 5 wsA).1).mpr (Or.inr rfl)
  exact ⟨h1, h2.1, h2.2.1, h2.2.2.1, h3⟩

/-- C9: `getContext` hands out a saved context only for an in-range tid
whose state is BLOCKED or IDLE, and then it is exactly that thread's stored
context; requesting the context of a RUNNING or UNCAPTURED thread is a
fatal assertion failure. -/
theorem C9_getContext_guard (tid : Nat) (s : SpinState) :
    ((getContext s tid).isSome = true ↔
      tid < MAX_THREADS ∧
        (s.threadStates tid = BLOCKED ∨ s.threadStates tid = IDLE)) ∧
    (∀ c, getContext s tid = some c → s.contexts tid = c) ∧
    (s.threadStates tid = RUNNING → getContext s tid = none) ∧
    (s.threadStates tid = UNCAPTURED → getContext s tid = none) := by
  refine ⟨⟨?_, ?_⟩, ?_, ?_, ?_⟩
  · intro hi
    obtain ⟨c, hc⟩ := Option.isSome_iff_exists.mp hi
    obtain ⟨a, b, -⟩ := getContext_some_iff.mp hc
    exact ⟨a, b⟩
  · intro ⟨a, b⟩
    have h := getContext_some_iff.mpr ⟨a, b, rfl⟩
    rw [h]
    rfl
  · intro c hc
    exact (getContext_some_iff.mp hc).2.2
  · intro hR
    unfold getContext
    split_ifs with h1 h2
    · exfalso
      rcases h2 with hb | hb <;> (rw [hR] at hb; exact ThreadState.noConfusion hb)
    all_goals rfl
  · intro hU
    unfold getContext
    split_ifs with h1 h2
    · exfalso
      rcases h2 with hb | hb <;> (rw [hU] at hb; exact ThreadState.noConfusion hb)
    all_goals rfl

theorem C9_witness :
    (getContext wsB 1).isSome = true ∧
    getContext wsB 0 = none ∧ getContext wsB 5 = none := by
  have h1 := ((C9_getContext_guard 1 wsB).1).mpr ⟨by decide, Or.inr (by decide)⟩
  have h2 := (C9_getContext_guard 0 wsB).2.2.1 (by decide)
  have h3 := (C9_getContext_guard 5 wsB).2.2.2 (by decide)
  exact ⟨h1, h2, h3⟩

/-- C10: in every reachable state (under the tool-API discipline) with the
lock free, `executorInSyscall = true` implies the executor exists and is
the current thread (`executorTid = curTid`), that thread is RUNNING, and it
is the sole captured thread (`capturedThreads = 1`); hence any thread found
RUNNING in such a state — in particular one re-entering the capture guard
while still RUNNING — is the executor, equals `curTid`, and
`capturedThreads = 1`. -/
theorem C10_executorInSyscall_soleRunning {s : SpinState} (h : Reachable s)
    (hf : s.executorInSyscall = true) :
    s.executorTid = s.curTid ∧ s.curTid < MAX_THREADS ∧
    s.threadStates s.curTid = RUNNING ∧ s.capturedThreads = 1 ∧
    (∀ tid, s.threadStates tid = RUNNING →
      tid = s.executorTid ∧ tid = s.curTid ∧ s.capturedThreads = 1) := by
  obtain ⟨hC, hS⟩ := reachable_inv h
  obtain ⟨ha, hb, hc, hd⟩ := hS hf
  refine ⟨ha, hb, hc, hd, ?_⟩
  intro tid htid
  have hcur := hC.running_unique tid htid
  exact ⟨by rw [hcur, ha], hcur, hd⟩

theorem C10_witness :
    wsC.executorInSyscall = true ∧ wsC.executorTid = wsC.curTid ∧
    wsC.curTid < MAX_THREADS ∧ wsC.threadStates wsC.curTid = RUNNING ∧
    wsC.capturedThreads = 1 ∧ (0 : Nat) = wsC.executorTid := by
  have h := C10_executorInSyscall_soleRunning reach_wsC rfl
  exact ⟨rfl, h.1, h.2.1, h.2.2.1, h.2.2.2.1, (h.2.2.2.2 0 (by decide)).1⟩

end Spin
